import Mathlib

/-!
# Verification of the serverless image-processing handler

Shallow embedding of `src/image-processor/app.py` (`lambda_handler`).
External collaborators (the S3 object store, the SNS notifier, the PIL
image codec) are modelled as deterministic oracle functions supplied by a
`World`; every call the handler makes to the store or the notifier, and
every invocation of the image encoder, is recorded in an effect trace.
Python exceptions are modelled with `Except String` (the string standing
for `str(e)`); the handler's outcome is either a returned response or a
raised error.
-/

set_option autoImplicit false

namespace ImageProcessor

/-- Raw object bytes (`response['Body'].read()` / the encoder's output). -/
abbrev ByteSeq := List Nat

/-- A decoded PIL image: its pixel dimensions, the decoder-reported
`format` (e.g. `"JPEG"`, `"PNG"`) and the color `mode` (e.g. `"RGB"`). -/
structure Img where
  width : Nat
  height : Nat
  format : String
  mode : String
  deriving DecidableEq

/-- One record of the S3 notification event.  `none` models a missing
`bucket.name` / `object.key` field (a Python `KeyError` on access). -/
structure EventRecord where
  bucketName : Option String
  objectKey : Option String
  deriving DecidableEq

/-- The invocation event.  `Records = none` models an event without the
`Records` key. -/
structure Event where
  Records : Option (List EventRecord)
  deriving DecidableEq

/-- Process environment: the three variables the handler reads.  A `none`
value models an unset variable (`os.environ[...]` raises `KeyError`). -/
structure Env where
  DESTINATION_BUCKET : Option String
  SEND_NOTIFICATIONS : Option String
  SNS_TOPIC_ARN : Option String

/-- Oracles for the external collaborators: `getObject`/`putObject` for the
object store, `publish` for the notifier, `decode` for `Image.open` and
`encode` for `image.save(format, optimize, quality)`.  An `Except.error e`
result models the call raising an exception whose text is `e`. -/
structure World where
  getObject : String → String → Except String ByteSeq
  decode : ByteSeq → Except String Img
  encode : Img → String → Bool → Nat → Except String ByteSeq
  putObject : String → String → ByteSeq → String → String → Except String Unit
  publish : String → String → String → Except String Unit

/-- Observable calls made during one invocation, in order. -/
inductive Effect where
  | getObject (bucket key : String)
  | encodeImage (image : Img) (format : String) (optimize : Bool) (quality : Nat)
  | putObject (bucket key : String) (body : ByteSeq) (contentType storageClass : String)
  | publish (topic subject message : String)
  deriving DecidableEq

/-- A response body: either a plain string or the `json.dumps` of the
success dictionary (message, original_key, processed_key — in that order). -/
inductive Body where
  | str (s : String)
  | json (message original_key processed_key : String)
  deriving DecidableEq

/-- The dictionary the handler returns. -/
structure Response where
  statusCode : Nat
  body : Body
  deriving DecidableEq

/--`returned` models a normal return, `raised` an exception propagated to
the invoking infrastructure. -/
inductive Outcome where
  | returned (r : Response)
  | raised (e : String)
  deriving DecidableEq

instance {ε α : Type} [DecidableEq ε] [DecidableEq α] :
    DecidableEq (Except ε α) := fun a b =>
  match a, b with
  | .error e1, .error e2 =>
    if h : e1 = e2 then .isTrue (by rw [h]) else .isFalse (by simp [h])
  | .ok a1, .ok a2 =>
    if h : a1 = a2 then .isTrue (by rw [h]) else .isFalse (by simp [h])
  | .error _, .ok _ => .isFalse (by simp)
  | .ok _, .error _ => .isFalse (by simp)

/-- ASCII lowering, modelling Python `str.lower()` on the keys involved. -/
def lowerStr (s : String) : String := String.mk (s.data.map Char.toLower)

/-- Python `str.endswith`: the suffix's characters close the string. -/
def strEndsWith (s suffix : String) : Bool := suffix.data.isSuffixOf s.data

/-- Index of the last occurrence of `c` in `l` (Python `str.rfind`),
`none` when absent. -/
def rfindIdx : List Char → Char → Option Nat
  | [], _ => none
  | a :: as, c =>
    match rfindIdx as c with
    | some i => some (i + 1)
    | none => if a = c then some (0 : Nat) else none

/-- `os.path.splitext(p)[0]` on the character list: find the last `/` and
the last `.`; when the dot comes after the separator and the characters
between them are not all dots, cut at the dot, else keep everything. -/
def splitextRootList (l : List Char) : List Char :=
  let sepIndex : Int := match rfindIdx l '/' with | some i => (i : Int) | none => -1
  let dotIndex : Int := match rfindIdx l '.' with | some i => (i : Int) | none => -1
  if sepIndex < dotIndex then
    let filenameStart := (sepIndex + 1).toNat
    let mid := (l.drop filenameStart).take (dotIndex.toNat - filenameStart)
    if mid.all (fun c => c = '.') then l else l.take dotIndex.toNat
  else l

/-- `os.path.splitext(p)[0]`. -/
def splitextRoot (p : String) : String := String.mk (splitextRootList p.data)

/-- `image_extensions = ('.png', '.jpg', '.jpeg', '.gif', '.bmp')`. -/
def image_extensions : List String := [".png", ".jpg", ".jpeg", ".gif", ".bmp"]

/-- `key.lower().endswith(image_extensions)` — the tuple form of
`endswith` succeeds when any listed suffix matches. -/
def isImageKey (key : String) : Bool :=
  image_extensions.any (fun ext => strEndsWith (lowerStr key) ext)

/-- The destination key: `f"thumbnails/{os.path.splitext(key)[0]}.jpg"`. -/
def destKey (key : String) : String :=
  "thumbnails/" ++ splitextRoot key ++ ".jpg"

/-- `os.environ.get('SEND_NOTIFICATIONS', 'false').lower() == 'true'`. -/
def notificationsEnabled (env : Env) : Bool :=
  lowerStr (env.SEND_NOTIFICATIONS.getD "false") == "true"

/-- Modelled from the spec: the rounding step of `PIL.Image.thumbnail`
(library code outside this repository) for the width branch.  The library
computes, over floats, `max(min(floor(v), ceil(v), key = λ n, |aspect -
n/150|), 1)` with `v = 150·w/h`; exact integer arithmetic stands in for the
floats — the floor of `150·w/h` is the integer division `150*w / h`, the
ceiling is `-((-(150*w)) / h)`, and the key comparison, multiplied by the
positive constant `150·h`, becomes `|150·w - n·h| ≤ |150·w - m·h|` (ties
keep the floor, as Python `min` does). -/
def roundAspectW (w h : ℤ) : ℤ :=
  let fl := 150 * w / h
  let ce := -(-(150 * w) / h)
  max (if |150 * w - fl * h| ≤ |150 * w - ce * h| then fl else ce) 1

/-- Modelled from the spec: height-branch companion of `roundAspectW`, for
`v = 150·h/w` and key `λ n, 0 if n = 0 else |aspect - 150/n|`.  A zero
floor has key 0, which always wins the tie-keeping `min`; otherwise, with
both candidates positive, multiplying the key comparison by `h·n·m` gives
`|w·n - 150·h|·m ≤ |w·m - 150·h|·n`. -/
def roundAspectH (w h : ℤ) : ℤ :=
  let fl := 150 * h / w
  let ce := -(-(150 * h) / w)
  max (if fl = 0 then fl
    else if |w * fl - 150 * h| * ce ≤ |w * ce - 150 * h| * fl then fl else ce) 1

/-- Modelled from the spec: `image.thumbnail((150, 150))` — library code
outside this repository.  If both dimensions already fit within 150×150 the
image is unchanged; otherwise the image is scaled preserving aspect ratio:
when `150/150 ≥ aspect` (i.e. `h ≥ w`, the dimensions being positive) the
height becomes 150 and the width is rounded via `roundAspectW`, else the
width becomes 150 and the height is rounded via `roundAspectH`.  `format`
and `mode` are untouched. -/
def pilThumbnail (img : Img) : Img :=
  if 150 ≥ img.width ∧ 150 ≥ img.height then img
  else if (img.height : ℤ) ≥ (img.width : ℤ) then
    { img with width := (roundAspectW img.width img.height).toNat, height := 150 }
  else
    { img with width := 150, height := (roundAspectH img.width img.height).toNat }

/-- `image.convert('RGB')`: the color mode becomes RGB, dimensions kept. -/
def convertRGB (img : Img) : Img := { img with mode := "RGB" }

/-- The thumbnail/convert steps: the image handed to `image.save` together
with `save_format` — `convert('RGB')` and `'JPEG'` when the source format
was not JPEG, else the image as-is and its own format. -/
def savedImage (img : Img) : Img × String :=
  let image := pilThumbnail img
  if image.format ≠ "JPEG" then (convertRGB image, "JPEG")
  else (image, image.format)

/-- The success notification text:
`f"Image {key} was successfully processed and saved to {destination_bucket}/{new_key}"`. -/
def successMessage (key destination_bucket new_key : String) : String :=
  "Image " ++ key ++ " was successfully processed and saved to "
    ++ destination_bucket ++ "/" ++ new_key

/-- `error_msg = f"Error processing image {key}: {str(e)}"`. -/
def error_msg (key e : String) : String :=
  "Error processing image " ++ key ++ ": " ++ e

/-- The event-parsing `try`: `event['Records'][0]['s3']['bucket']['name']`
and `...['object']['key']`; `none` models the `KeyError`/`IndexError`
branch. -/
def parseEvent (event : Event) : Option (String × String) :=
  match event.Records with
  | none => none
  | some [] => none
  | some (r :: _) =>
    match r.bucketName, r.objectKey with
    | some b, some k => some (b, k)
    | _, _ => none

/-- The body of the processing `try` block: fetch, decode, thumbnail,
convert, encode, destination lookup, upload, optional success publish.
Returns the response or the first error, together with the effect trace
accumulated up to that point. -/
def tryBlock (env : Env) (w : World) (bucket key : String) :
    Except String Response × List Effect :=
  let fx := [Effect.getObject bucket key]
  match w.getObject bucket key with
  | .error e => (.error e, fx)
  | .ok image_content =>
  match w.decode image_content with
  | .error e => (.error e, fx)
  | .ok image0 =>
  let saved := savedImage image0
  let fx := fx ++ [Effect.encodeImage saved.1 saved.2 true 85]
  match w.encode saved.1 saved.2 true 85 with
  | .error e => (.error e, fx)
  | .ok body =>
  match env.DESTINATION_BUCKET with
  | none => (.error "'DESTINATION_BUCKET'", fx)
  | some destination_bucket =>
  let new_key := destKey key
  let fx := fx ++ [Effect.putObject destination_bucket new_key body "image/jpeg" "STANDARD_IA"]
  match w.putObject destination_bucket new_key body "image/jpeg" "STANDARD_IA" with
  | .error e => (.error e, fx)
  | .ok _ =>
  if notificationsEnabled env then
    match env.SNS_TOPIC_ARN with
    | none => (.error "'SNS_TOPIC_ARN'", fx)
    | some topic =>
      let message := successMessage key destination_bucket new_key
      let fx := fx ++ [Effect.publish topic "Image Processing Successful" message]
      match w.publish topic "Image Processing Successful" message with
      | .error e => (.error e, fx)
      | .ok _ => (.ok ⟨200, .json "Image processed successfully" key new_key⟩, fx)
  else (.ok ⟨200, .json "Image processed successfully" key new_key⟩, fx)

/-- The `except Exception` block: build the error message, publish the
failure notification when notifications are enabled (reading
`SNS_TOPIC_ARN` can itself raise, and a raising publish masks the original
error), then re-raise. -/
def exceptHandler (env : Env) (w : World) (key e : String) (fx : List Effect) :
    Outcome × List Effect :=
  if notificationsEnabled env then
    match env.SNS_TOPIC_ARN with
    | none => (.raised "'SNS_TOPIC_ARN'", fx)
    | some topic =>
      let fx := fx ++ [Effect.publish topic "Image Processing Failed" (error_msg key e)]
      match w.publish topic "Image Processing Failed" (error_msg key e) with
      | .error e2 => (.raised e2, fx)
      | .ok _ => (.raised e, fx)
  else (.raised e, fx)

/-- `lambda_handler(event, context)`: parse (malformed → 400), extension
filter (skip → 200), then the processing `try` block with its `except`
wrapper. -/
def lambda_handler (env : Env) (w : World) (event : Event) :
    Outcome × List Effect :=
  match parseEvent event with
  | none => (.returned ⟨400, .str "Invalid event structure"⟩, [])
  | some (bucket, key) =>
  if isImageKey key = false then
    (.returned ⟨200, .str "Not an image file, skipping processing"⟩, [])
  else
    match tryBlock env w bucket key with
    | (.ok resp, fx) => (.returned resp, fx)
    | (.error e, fx) => exceptHandler env w key e fx

/-- The publish effects of a trace. -/
def publishEffects (fx : List Effect) : List Effect :=
  fx.filter fun x => match x with | .publish _ _ _ => true | _ => false

/-- The upload effects of a trace. -/
def putEffects (fx : List Effect) : List Effect :=
  fx.filter fun x => match x with | .putObject _ _ _ _ _ => true | _ => false

theorem publishEffects_append (a b : List Effect) :
    publishEffects (a ++ b) = publishEffects a ++ publishEffects b := by
  simp [publishEffects]

theorem putEffects_append (a b : List Effect) :
    putEffects (a ++ b) = putEffects a ++ putEffects b := by
  simp [putEffects]

/-! ### Concrete collaborators used by the witnesses -/

/-- A world in which every collaborator call succeeds and decoding yields
the spec's 800×600 PNG example. -/
def wOk : World :=
  ⟨fun _ _ => .ok [1, 2, 3], fun _ => .ok ⟨800, 600, "PNG", "RGB"⟩,
   fun _ _ _ _ => .ok [9, 9], fun _ _ _ _ _ => .ok (), fun _ _ _ => .ok ()⟩

/-- A world in which the fetch raises `getfail` and every publish raises
`pubfail`. -/
def wGetFailPubFail : World :=
  ⟨fun _ _ => .error "getfail", fun _ => .error "nodecode",
   fun _ _ _ _ => .error "noencode", fun _ _ _ _ _ => .error "noput",
   fun _ _ _ => .error "pubfail"⟩

/-- A world in which the fetch raises `getfail` and publishes succeed. -/
def wGetFail : World :=
  ⟨fun _ _ => .error "getfail", fun _ => .ok ⟨800, 600, "PNG", "RGB"⟩,
   fun _ _ _ _ => .ok [9, 9], fun _ _ _ _ _ => .ok (), fun _ _ _ => .ok ()⟩

/-- A world in which only the success publish raises. -/
def wSuccessPubFail : World :=
  ⟨fun _ _ => .ok [1, 2, 3], fun _ => .ok ⟨800, 600, "PNG", "RGB"⟩,
   fun _ _ _ _ => .ok [9, 9], fun _ _ _ _ _ => .ok (),
   fun _ s _ => if s = "Image Processing Successful" then .error "snsdown" else .ok ()⟩

/-- Environment with notifications enabled. -/
def envNotify : Env := ⟨some "dest", some "true", some "topic"⟩

/-- Environment with notifications left unset. -/
def envQuiet : Env := ⟨some "dest", none, none⟩

/-- Environment with `SEND_NOTIFICATIONS='1'`, which does not enable them. -/
def envOne : Env := ⟨some "dest", some "1", some "topic"⟩

/-- Environment missing `DESTINATION_BUCKET`. -/
def envNoDest : Env := ⟨none, none, none⟩

/-- The spec's example event. -/
def evVacation : Event := ⟨some [⟨some "src", some "photos/vacation.PNG"⟩]⟩

/-! ### Helper lemmas -/

theorem exceptHandler_fst (env : Env) (w : World) (key e : String)
    (fx : List Effect) :
    ∃ e2, (exceptHandler env w key e fx).1 = .raised e2 := by
  simp only [exceptHandler]
  repeat' split
  all_goals exact ⟨_, rfl⟩

theorem exceptHandler_snd (env : Env) (w : World) (key e : String)
    (fx : List Effect) :
    (exceptHandler env w key e fx).2 = fx ∨
      ∃ t, (exceptHandler env w key e fx).2 =
        fx ++ [Effect.publish t "Image Processing Failed" (error_msg key e)] := by
  simp only [exceptHandler]
  repeat' split
  · exact Or.inl rfl
  · exact Or.inr ⟨_, rfl⟩
  · exact Or.inr ⟨_, rfl⟩
  · exact Or.inl rfl

theorem mem_exceptHandler (env : Env) (w : World) (key e : String)
    (fx : List Effect) (x : Effect) (hx : x ∈ fx) :
    x ∈ (exceptHandler env w key e fx).2 := by
  rcases exceptHandler_snd env w key e fx with h | ⟨t, h⟩ <;>
    simp [h, hx]

theorem savedImage_snd (img : Img) : (savedImage img).2 = "JPEG" := by
  simp only [savedImage]
  split
  · rfl
  · next h => simpa using h

theorem pilThumbnail_format (img : Img) :
    (pilThumbnail img).format = img.format := by
  simp only [pilThumbnail]
  repeat' split
  all_goals rfl

theorem pilThumbnail_mode (img : Img) :
    (pilThumbnail img).mode = img.mode := by
  simp only [pilThumbnail]
  repeat' split
  all_goals rfl

/-! ### C1 -/

/-- C1: for every event in which `Records` is missing, the record list is
empty, or the first record lacks the bucket name or object key, the handler
returns `{statusCode: 400, body: 'Invalid event structure'}`, raises
nothing, and makes no collaborator call (in particular no publish). -/
theorem malformed_event_returns_400 (env : Env) (w : World) (event : Event)
    (h : event.Records = none ∨ event.Records = some [] ∨
      ∃ r rs, event.Records = some (r :: rs) ∧
        (r.bucketName = none ∨ r.objectKey = none)) :
    lambda_handler env w event =
      (.returned ⟨400, .str "Invalid event structure"⟩, []) := by
  have hp : parseEvent event = none := by
    rcases h with h | h | ⟨r, rs, h, hr⟩
    · simp [parseEvent, h]
    · simp [parseEvent, h]
    · rcases hr with hr | hr <;>
        · cases hbk : r.bucketName <;> cases hok : r.objectKey <;>
            simp_all [parseEvent]
  simp [lambda_handler, hp]

/-- C1 witness: the event without `Records`. -/
theorem malformed_event_returns_400_witness :
    lambda_handler envQuiet wOk ⟨none⟩ =
      (.returned ⟨400, .str "Invalid event structure"⟩, []) :=
  malformed_event_returns_400 envQuiet wOk ⟨none⟩ (Or.inl rfl)

/-! ### C2 -/

/-- C2: for every well-formed event whose object key's lowercase form ends
in none of `.png`, `.jpg`, `.jpeg`, `.gif`, `.bmp`, the handler returns the
200 skip response and makes no collaborator call — neither the object store
(get or put) nor the notifier. -/
theorem non_image_key_skips (env : Env) (w : World) (event : Event)
    (r : EventRecord) (rs : List EventRecord) (b k : String)
    (hrec : event.Records = some (r :: rs)) (hb : r.bucketName = some b)
    (hk : r.objectKey = some k)
    (hext : ∀ ext ∈ image_extensions, strEndsWith (lowerStr k) ext = false) :
    lambda_handler env w event =
      (.returned ⟨200, .str "Not an image file, skipping processing"⟩, []) := by
  have hp : parseEvent event = some (b, k) := by
    simp [parseEvent, hrec, hb, hk]
  have hi : isImageKey k = false := by
    simp only [isImageKey, List.any_eq_false]
    intro ext hmem
    simpa using hext ext hmem
  simp [lambda_handler, hp, hi]

/-- C2 witness: a `.txt` key is skipped with no effects. -/
theorem non_image_key_skips_witness :
    lambda_handler envNotify wOk ⟨some [⟨some "src", some "notes.txt"⟩]⟩ =
      (.returned ⟨200, .str "Not an image file, skipping processing"⟩, []) :=
  non_image_key_skips envNotify wOk _ ⟨some "src", some "notes.txt"⟩ [] "src"
    "notes.txt" rfl rfl rfl (by decide)

/-! ### C7 -/

theorem tryBlock_no_publish (env : Env) (w : World) (b k t s m : String)
    (hne : notificationsEnabled env = false) :
    Effect.publish t s m ∉ (tryBlock env w b k).2 := by
  simp only [tryBlock]
  repeat' split
  all_goals simp_all

/-- C7: when `SEND_NOTIFICATIONS` is unset, or set to any value whose
lowercase form is not exactly `'true'` (such as `'1'`, `'yes'`, `'True '`),
no notifier publish occurs on any path. -/
theorem disabled_notifications_publish_nothing (env : Env) (w : World)
    (event : Event) (t s m : String)
    (hoff : ∀ v, env.SEND_NOTIFICATIONS = some v → lowerStr v ≠ "true") :
    Effect.publish t s m ∉ (lambda_handler env w event).2 := by
  have hne : notificationsEnabled env = false := by
    cases hv : env.SEND_NOTIFICATIONS with
    | none => simp only [notificationsEnabled, hv, Option.getD]; decide
    | some v =>
      simp only [notificationsEnabled, hv, Option.getD]
      exact beq_eq_false_iff_ne.mpr (hoff v hv)
  simp only [lambda_handler]
  repeat' split
  · simp
  · simp
  · next heq =>
    intro hmem
    apply tryBlock_no_publish env w _ _ t s m hne
    rw [heq]
    exact hmem
  · next heq =>
    simp only [exceptHandler, hne, Bool.false_eq_true, if_false]
    intro hmem
    apply tryBlock_no_publish env w _ _ t s m hne
    rw [heq]
    exact hmem

/-- C7 witness: `SEND_NOTIFICATIONS='1'` with a failing fetch publishes
nothing. -/
theorem disabled_notifications_publish_nothing_witness :
    Effect.publish "topic" "Image Processing Failed"
        "Error processing image photos/vacation.PNG: getfail"
      ∉ (lambda_handler envOne wGetFail evVacation).2 :=
  disabled_notifications_publish_nothing envOne wGetFail evVacation _ _ _
    (by intro v hv; simp [envOne] at hv; subst hv; decide)

/-! ### C4 -/

theorem tryBlock_ok (env : Env) (w : World) (b k : String) (resp : Response)
    (fx : List Effect) (h : tryBlock env w b k = (.ok resp, fx)) :
    resp = ⟨200, .json "Image processed successfully" k (destKey k)⟩ ∧
    ∃ d bytes, env.DESTINATION_BUCKET = some d ∧
      Effect.putObject d (destKey k) bytes "image/jpeg" "STANDARD_IA" ∈ fx := by
  simp only [tryBlock] at h
  repeat' split at h
  all_goals try simp_all
  all_goals obtain ⟨h1, h2⟩ := h
  all_goals subst h2
  all_goals exact
    ⟨_, List.mem_cons_of_mem _ (List.mem_cons_of_mem _ (List.mem_cons_self _ _))⟩

/-- C4: whenever the handler returns the structured success result, the
`processed_key` it reports is `thumbnails/ + stripExtension(original_key) +
.jpg`, and exactly that key was uploaded to the configured destination
bucket with the fixed content type and storage class. -/
theorem processed_key_is_thumbnail_jpg (env : Env) (w : World) (event : Event)
    (m okey pkey : String)
    (hret : (lambda_handler env w event).1 = .returned ⟨200, .json m okey pkey⟩) :
    pkey = destKey okey ∧
    ∃ d bytes, env.DESTINATION_BUCKET = some d ∧
      Effect.putObject d pkey bytes "image/jpeg" "STANDARD_IA"
        ∈ (lambda_handler env w event).2 := by
  revert hret
  simp only [lambda_handler]
  repeat' split
  · intro h; simp at h
  · intro h; simp at h
  · next heq =>
    intro h
    obtain ⟨hresp, d, bytes, hd, hmem⟩ := tryBlock_ok env w _ _ _ _ heq
    rw [hresp] at h
    simp only [Outcome.returned.injEq, Response.mk.injEq, Body.json.injEq,
      true_and] at h
    obtain ⟨hm, hok, hpk⟩ := h
    subst hok
    subst hpk
    exact ⟨rfl, d, bytes, hd, hmem⟩
  · next heq =>
    intro h
    obtain ⟨e2, h2⟩ := exceptHandler_fst env w _ _ _
    rw [h2] at h
    simp at h

/-- C4 witness: the spec's `photos/vacation.PNG` example run to success. -/
theorem processed_key_is_thumbnail_jpg_witness :
    "thumbnails/photos/vacation.jpg" = destKey "photos/vacation.PNG" ∧
    ∃ d bytes, envQuiet.DESTINATION_BUCKET = some d ∧
      Effect.putObject d "thumbnails/photos/vacation.jpg" bytes "image/jpeg"
          "STANDARD_IA"
        ∈ (lambda_handler envQuiet wOk evVacation).2 :=
  processed_key_is_thumbnail_jpg envQuiet wOk evVacation
    "Image processed successfully" "photos/vacation.PNG"
    "thumbnails/photos/vacation.jpg" (by decide)

/-! ### C6 -/

theorem savedImage_mode (img : Img) (h : img.format ≠ "JPEG") :
    (savedImage img).1.mode = "RGB" := by
  simp only [savedImage, pilThumbnail_format]
  rw [if_pos h]
  rfl

/-- With a well-formed image-key event the handler is the `try` block
followed by its `except` wrapper. -/
theorem lambda_handler_eq_tryBlock (env : Env) (w : World) (event : Event)
    (b k : String)
    (hp : parseEvent event = some (b, k)) (himg : isImageKey k = true) :
    lambda_handler env w event =
      match tryBlock env w b k with
      | (.ok resp, fx) => (.returned resp, fx)
      | (.error e, fx) => exceptHandler env w k e fx := by
  simp [lambda_handler, hp, himg]

theorem tryBlock_encode_mem (env : Env) (w : World) (b k : String)
    (c : ByteSeq) (img : Img)
    (hget : w.getObject b k = .ok c) (hdec : w.decode c = .ok img) :
    Effect.encodeImage (savedImage img).1 (savedImage img).2 true 85
      ∈ (tryBlock env w b k).2 := by
  simp only [tryBlock, hget, hdec]
  repeat' split
  all_goals simp

theorem tryBlock_put_params (env : Env) (w : World) (b k : String)
    (d k2 : String) (bs : ByteSeq) (ct sc : String)
    (h : Effect.putObject d k2 bs ct sc ∈ (tryBlock env w b k).2) :
    ct = "image/jpeg" ∧ sc = "STANDARD_IA" := by
  simp only [tryBlock] at h
  repeat' split at h
  all_goals simp_all

theorem put_params_fixed (env : Env) (w : World) (event : Event)
    (d k2 : String) (bs : ByteSeq) (ct sc : String)
    (h : Effect.putObject d k2 bs ct sc ∈ (lambda_handler env w event).2) :
    ct = "image/jpeg" ∧ sc = "STANDARD_IA" := by
  revert h
  simp only [lambda_handler]
  repeat' split
  · simp
  · simp
  · next heq =>
    intro h
    apply tryBlock_put_params env w _ _ d k2 bs ct sc
    rw [heq]
    exact h
  · next heq =>
    intro h
    rcases exceptHandler_snd env w _ _ _ with h2 | ⟨t2, h2⟩ <;>
      rw [h2] at h <;>
      [skip; rw [List.mem_append] at h] <;>
      [skip; rcases h with h | h] <;>
      first
        | (apply tryBlock_put_params env w _ _ d k2 bs ct sc; rw [heq]; exact h)
        | simp_all

/-- C6: for every decodable image, the encoder is invoked on the
thumbnailed image with `save_format = 'JPEG'` (the source's own format when
it already was JPEG, a conversion of the color mode to RGB first when it
was not), always with `optimize` and `quality=85`; and every upload the
handler ever performs carries ContentType `image/jpeg` and the
`STANDARD_IA` (infrequent-access) storage class. -/
theorem reencode_jpeg_params (env : Env) (w : World) (event : Event)
    (r : EventRecord) (rs : List EventRecord) (b k : String)
    (c : ByteSeq) (img : Img)
    (hrec : event.Records = some (r :: rs)) (hb : r.bucketName = some b)
    (hk : r.objectKey = some k) (himg : isImageKey k = true)
    (hget : w.getObject b k = .ok c) (hdec : w.decode c = .ok img) :
    Effect.encodeImage (savedImage img).1 (savedImage img).2 true 85
      ∈ (lambda_handler env w event).2 ∧
    (savedImage img).2 = "JPEG" ∧
    (img.format ≠ "JPEG" → (savedImage img).1.mode = "RGB") ∧
    (img.format = "JPEG" → (savedImage img).2 = img.format) ∧
    (∀ d k2 bs ct sc,
      Effect.putObject d k2 bs ct sc ∈ (lambda_handler env w event).2 →
        ct = "image/jpeg" ∧ sc = "STANDARD_IA") := by
  have hp : parseEvent event = some (b, k) := by
    simp [parseEvent, hrec, hb, hk]
  refine ⟨?_, savedImage_snd img, fun h => savedImage_mode img h,
    fun h => (savedImage_snd img).trans h.symm,
    fun d k2 bs ct sc h => put_params_fixed env w event d k2 bs ct sc h⟩
  rw [lambda_handler_eq_tryBlock env w event b k hp himg]
  split
  · next heq =>
    have := tryBlock_encode_mem env w b k c img hget hdec
    rw [heq] at this
    exact this
  · next heq =>
    apply mem_exceptHandler
    have := tryBlock_encode_mem env w b k c img hget hdec
    rw [heq] at this
    exact this

/-- C6 witness: the 800×600 PNG example is encoded as JPEG, RGB, quality
85 with optimization, and uploaded as `image/jpeg` / `STANDARD_IA`. -/
theorem reencode_jpeg_params_witness :
    Effect.encodeImage (savedImage ⟨800, 600, "PNG", "RGB"⟩).1
        (savedImage ⟨800, 600, "PNG", "RGB"⟩).2 true 85
      ∈ (lambda_handler envQuiet wOk evVacation).2 ∧
    (savedImage ⟨800, 600, "PNG", "RGB"⟩).2 = "JPEG" ∧
    (Img.format ⟨800, 600, "PNG", "RGB"⟩ ≠ "JPEG" →
      (savedImage ⟨800, 600, "PNG", "RGB"⟩).1.mode = "RGB") ∧
    (Img.format ⟨800, 600, "PNG", "RGB"⟩ = "JPEG" →
      (savedImage ⟨800, 600, "PNG", "RGB"⟩).2 = Img.format ⟨800, 600, "PNG", "RGB"⟩) ∧
    (∀ d k2 bs ct sc,
      Effect.putObject d k2 bs ct sc ∈ (lambda_handler envQuiet wOk evVacation).2 →
        ct = "image/jpeg" ∧ sc = "STANDARD_IA") :=
  reencode_jpeg_params envQuiet wOk evVacation ⟨some "src", some "photos/vacation.PNG"⟩
    [] "src" "photos/vacation.PNG" [1, 2, 3] ⟨800, 600, "PNG", "RGB"⟩
    rfl rfl rfl (by decide) rfl rfl

/-! ### C9 -/

/-- C9: `DESTINATION_BUCKET` is read only after fetch, decode, resize and
encode; with it unset, the handler still fetches and transforms, uploads
nothing, and ends by raising (the `KeyError` itself when notifications are
disabled) rather than returning any structured result. -/
theorem dest_bucket_read_after_transform (env : Env) (w : World)
    (event : Event) (r : EventRecord) (rs : List EventRecord) (b k : String)
    (c : ByteSeq) (img : Img) (bs : ByteSeq)
    (hrec : event.Records = some (r :: rs)) (hb : r.bucketName = some b)
    (hk : r.objectKey = some k) (himg : isImageKey k = true)
    (hget : w.getObject b k = .ok c) (hdec : w.decode c = .ok img)
    (henc : w.encode (savedImage img).1 (savedImage img).2 true 85 = .ok bs)
    (hdb : env.DESTINATION_BUCKET = none) :
    (∃ e, (lambda_handler env w event).1 = .raised e) ∧
    Effect.getObject b k ∈ (lambda_handler env w event).2 ∧
    Effect.encodeImage (savedImage img).1 (savedImage img).2 true 85
      ∈ (lambda_handler env w event).2 ∧
    (∀ d k2 bs2 ct sc,
      Effect.putObject d k2 bs2 ct sc ∉ (lambda_handler env w event).2) ∧
    (notificationsEnabled env = false →
      (lambda_handler env w event).1 = .raised "'DESTINATION_BUCKET'") := by
  have hp : parseEvent event = some (b, k) := by
    simp [parseEvent, hrec, hb, hk]
  have htb : tryBlock env w b k = (.error "'DESTINATION_BUCKET'",
      [Effect.getObject b k,
       Effect.encodeImage (savedImage img).1 (savedImage img).2 true 85]) := by
    simp [tryBlock, hget, hdec, henc, hdb]
  have hlh : lambda_handler env w event =
      exceptHandler env w k "'DESTINATION_BUCKET'"
        [Effect.getObject b k,
         Effect.encodeImage (savedImage img).1 (savedImage img).2 true 85] := by
    simp [lambda_handler, hp, himg, htb]
  rw [hlh]
  refine ⟨exceptHandler_fst env w k _ _, mem_exceptHandler env w k _ _ _ (by simp),
    mem_exceptHandler env w k _ _ _ (by simp), ?_, ?_⟩
  · intro d k2 bs2 ct sc
    rcases exceptHandler_snd env w k "'DESTINATION_BUCKET'"
        [Effect.getObject b k,
         Effect.encodeImage (savedImage img).1 (savedImage img).2 true 85]
      with h2 | ⟨t2, h2⟩ <;> rw [h2] <;> simp
  · intro hne
    simp [exceptHandler, hne]

/-- C9 witness: unset destination bucket, everything else healthy. -/
theorem dest_bucket_read_after_transform_witness :
    (∃ e, (lambda_handler envNoDest wOk evVacation).1 = .raised e) ∧
    Effect.getObject "src" "photos/vacation.PNG"
      ∈ (lambda_handler envNoDest wOk evVacation).2 ∧
    Effect.encodeImage (savedImage ⟨800, 600, "PNG", "RGB"⟩).1
        (savedImage ⟨800, 600, "PNG", "RGB"⟩).2 true 85
      ∈ (lambda_handler envNoDest wOk evVacation).2 ∧
    (∀ d k2 bs2 ct sc,
      Effect.putObject d k2 bs2 ct sc ∉ (lambda_handler envNoDest wOk evVacation).2) ∧
    (notificationsEnabled envNoDest = false →
      (lambda_handler envNoDest wOk evVacation).1 = .raised "'DESTINATION_BUCKET'") :=
  dest_bucket_read_after_transform envNoDest wOk evVacation
    ⟨some "src", some "photos/vacation.PNG"⟩ [] "src" "photos/vacation.PNG"
    [1, 2, 3] ⟨800, 600, "PNG", "RGB"⟩ [9, 9]
    rfl rfl rfl (by decide) rfl rfl rfl rfl

/-! ### C3 -/

/-- Failure of one of the pipeline steps proper — fetch, decode, encode or
upload — with original error text `e`.  (The resize step is a pure local
computation in this model and has no failure mode.) -/
def stepFails (env : Env) (w : World) (b k e : String) : Prop :=
  w.getObject b k = .error e
  ∨ (∃ c, w.getObject b k = .ok c ∧ w.decode c = .error e)
  ∨ (∃ c img, w.getObject b k = .ok c ∧ w.decode c = .ok img ∧
      w.encode (savedImage img).1 (savedImage img).2 true 85 = .error e)
  ∨ (∃ c img bs d, w.getObject b k = .ok c ∧ w.decode c = .ok img ∧
      w.encode (savedImage img).1 (savedImage img).2 true 85 = .ok bs ∧
      env.DESTINATION_BUCKET = some d ∧
      w.putObject d (destKey k) bs "image/jpeg" "STANDARD_IA" = .error e)

theorem exceptHandler_notify (env : Env) (w : World) (key e : String)
    (fx : List Effect) (t : String)
    (hne : notificationsEnabled env = true) (ht : env.SNS_TOPIC_ARN = some t) :
    (exceptHandler env w key e fx).2 =
      fx ++ [Effect.publish t "Image Processing Failed" (error_msg key e)] ∧
    (w.publish t "Image Processing Failed" (error_msg key e) = .ok () →
      (exceptHandler env w key e fx).1 = .raised e) ∧
    (∀ e2, w.publish t "Image Processing Failed" (error_msg key e) = .error e2 →
      (exceptHandler env w key e fx).1 = .raised e2) := by
  simp only [exceptHandler, hne, ht, if_true]
  refine ⟨?_, ?_, ?_⟩
  · split <;> rfl
  · intro hok; rw [hok]
  · intro e2 he2; rw [he2]

/-- C3 counterexample: with notifications enabled, the fetch failing with
`getfail` and the notifier itself raising `pubfail`, exactly one failure
publish is attempted as the claim says — but the handler propagates
`pubfail`, not the original `getfail`, so the original error is not
propagated to the caller. -/
theorem original_error_masked_by_publish_failure :
    notificationsEnabled envNotify = true ∧
    wGetFailPubFail.getObject "src" "photos/vacation.PNG" = .error "getfail" ∧
    (publishEffects (lambda_handler envNotify wGetFailPubFail evVacation).2).length = 1 ∧
    (lambda_handler envNotify wGetFailPubFail evVacation).1 = .raised "pubfail" ∧
    (lambda_handler envNotify wGetFailPubFail evVacation).1 ≠ .raised "getfail" := by
  decide

/-- C3 (amended): for every well-formed image-key event, when notifications
are enabled (and the topic is configured) and the fetch, decode, encode or
upload step fails, exactly one notifier publish occurs, with subject
`Image Processing Failed` and a message containing the key and error text;
if that publish does not itself raise, the original error is propagated to
the caller, and if it raises, its own error is propagated instead (masking
the original). -/
theorem failure_publish_then_reraise (env : Env) (w : World) (event : Event)
    (r : EventRecord) (rs : List EventRecord) (b k e t : String)
    (hrec : event.Records = some (r :: rs)) (hb : r.bucketName = some b)
    (hk : r.objectKey = some k) (himg : isImageKey k = true)
    (hne : notificationsEnabled env = true) (ht : env.SNS_TOPIC_ARN = some t)
    (hfail : stepFails env w b k e) :
    (publishEffects (lambda_handler env w event).2).length = 1 ∧
    Effect.publish t "Image Processing Failed" (error_msg k e)
      ∈ (lambda_handler env w event).2 ∧
    (∃ p q, error_msg k e = p ++ k ++ q ++ e) ∧
    (w.publish t "Image Processing Failed" (error_msg k e) = .ok () →
      (lambda_handler env w event).1 = .raised e) ∧
    (∀ e2, w.publish t "Image Processing Failed" (error_msg k e) = .error e2 →
      (lambda_handler env w event).1 = .raised e2) := by
  have hp : parseEvent event = some (b, k) := by
    simp [parseEvent, hrec, hb, hk]
  have hmain : ∃ fx0 : List Effect, tryBlock env w b k = (.error e, fx0) ∧
      publishEffects fx0 = [] := by
    rcases hfail with hf | ⟨c, hc, hf⟩ | ⟨c, img, hc, hi, hf⟩
      | ⟨c, img, bs, d, hc, hi, henc, hd, hf⟩
    · exact ⟨[Effect.getObject b k], by simp [tryBlock, hf],
        by simp [publishEffects]⟩
    · exact ⟨[Effect.getObject b k], by simp [tryBlock, hc, hf],
        by simp [publishEffects]⟩
    · exact ⟨[Effect.getObject b k,
        Effect.encodeImage (savedImage img).1 (savedImage img).2 true 85],
        by simp [tryBlock, hc, hi, hf], by simp [publishEffects]⟩
    · exact ⟨[Effect.getObject b k,
        Effect.encodeImage (savedImage img).1 (savedImage img).2 true 85,
        Effect.putObject d (destKey k) bs "image/jpeg" "STANDARD_IA"],
        by simp [tryBlock, hc, hi, henc, hd, hf], by simp [publishEffects]⟩
  obtain ⟨fx0, htb, hpub0⟩ := hmain
  have hlh : lambda_handler env w event = exceptHandler env w k e fx0 := by
    rw [lambda_handler_eq_tryBlock env w event b k hp himg, htb]
  obtain ⟨hsnd, hok, herr⟩ := exceptHandler_notify env w k e fx0 t hne ht
  rw [hlh, hsnd]
  refine ⟨?_, by simp, ⟨"Error processing image ", ": ", rfl⟩, ?_, ?_⟩
  · rw [publishEffects_append, hpub0]
    rfl
  · intro h
    rw [hlh] at *
    exact hok h
  · intro e2 h
    rw [hlh] at *
    exact herr e2 h

/-- C3 (amended) witness: fetch fails, notifier healthy — one failure
publish and the original error re-raised. -/
theorem failure_publish_then_reraise_witness :
    (publishEffects (lambda_handler envNotify wGetFail evVacation).2).length = 1 ∧
    Effect.publish "topic" "Image Processing Failed"
        (error_msg "photos/vacation.PNG" "getfail")
      ∈ (lambda_handler envNotify wGetFail evVacation).2 ∧
    (∃ p q, error_msg "photos/vacation.PNG" "getfail" =
      p ++ "photos/vacation.PNG" ++ q ++ "getfail") ∧
    (wGetFail.publish "topic" "Image Processing Failed"
        (error_msg "photos/vacation.PNG" "getfail") = .ok () →
      (lambda_handler envNotify wGetFail evVacation).1 = .raised "getfail") ∧
    (∀ e2, wGetFail.publish "topic" "Image Processing Failed"
        (error_msg "photos/vacation.PNG" "getfail") = .error e2 →
      (lambda_handler envNotify wGetFail evVacation).1 = .raised e2) :=
  failure_publish_then_reraise envNotify wGetFail evVacation
    ⟨some "src", some "photos/vacation.PNG"⟩ [] "src" "photos/vacation.PNG"
    "getfail" "topic" rfl rfl rfl (by decide) rfl rfl (Or.inl rfl)

/-! ### C8 -/

theorem putEffects_exceptHandler (env : Env) (w : World) (key e : String)
    (fx : List Effect) :
    putEffects (exceptHandler env w key e fx).2 = putEffects fx := by
  rcases exceptHandler_snd env w key e fx with h | ⟨t, h⟩ <;> rw [h] <;>
    simp [putEffects, List.filter_append]

theorem tryBlock_putEffects_eq (env : Env) (w1 w2 : World) (b k : String)
    (hg : w1.getObject = w2.getObject) (hd : w1.decode = w2.decode)
    (he : w1.encode = w2.encode) :
    putEffects (tryBlock env w1 b k).2 = putEffects (tryBlock env w2 b k).2 := by
  simp only [tryBlock, hg, hd, he]
  repeat' split
  all_goals simp_all [putEffects]

/-- C8: determinism of the upload — two invocations on the same event, the
same environment and worlds that agree on object content, decoding and
encoding (upload and publish acknowledgements may vary) perform the same
uploads: byte-identical bodies to the same destination key. -/
theorem upload_deterministic (env : Env) (w1 w2 : World) (event : Event)
    (hg : w1.getObject = w2.getObject) (hd : w1.decode = w2.decode)
    (he : w1.encode = w2.encode) :
    putEffects (lambda_handler env w1 event).2 =
      putEffects (lambda_handler env w2 event).2 := by
  cases hp : parseEvent event with
  | none =>
    have e1 : lambda_handler env w1 event =
        (.returned ⟨400, .str "Invalid event structure"⟩, []) := by
      simp [lambda_handler, hp]
    have e2 : lambda_handler env w2 event =
        (.returned ⟨400, .str "Invalid event structure"⟩, []) := by
      simp [lambda_handler, hp]
    rw [e1, e2]
  | some bk =>
    obtain ⟨b, k⟩ := bk
    cases hik : isImageKey k
    · have e1 : lambda_handler env w1 event =
          (.returned ⟨200, .str "Not an image file, skipping processing"⟩, []) := by
        simp [lambda_handler, hp, hik]
      have e2 : lambda_handler env w2 event =
          (.returned ⟨200, .str "Not an image file, skipping processing"⟩, []) := by
        simp [lambda_handler, hp, hik]
      rw [e1, e2]
    · rw [lambda_handler_eq_tryBlock env w1 event b k hp hik,
        lambda_handler_eq_tryBlock env w2 event b k hp hik]
      have h1 : putEffects (match tryBlock env w1 b k with
          | (.ok resp, fx) => ((Outcome.returned resp : Outcome), fx)
          | (.error e, fx) => exceptHandler env w1 k e fx).2 =
          putEffects (tryBlock env w1 b k).2 := by
        rcases htb : tryBlock env w1 b k with ⟨res, fx⟩
        cases res
        · simp [putEffects_exceptHandler]
        · simp
      have h2 : putEffects (match tryBlock env w2 b k with
          | (.ok resp, fx) => ((Outcome.returned resp : Outcome), fx)
          | (.error e, fx) => exceptHandler env w2 k e fx).2 =
          putEffects (tryBlock env w2 b k).2 := by
        rcases htb : tryBlock env w2 b k with ⟨res, fx⟩
        cases res
        · simp [putEffects_exceptHandler]
        · simp
      rw [h1, h2]
      exact tryBlock_putEffects_eq env w1 w2 b k hg hd he

/-- C8 witness: the same healthy world twice. -/
theorem upload_deterministic_witness :
    putEffects (lambda_handler envQuiet wOk evVacation).2 =
      putEffects (lambda_handler envQuiet wOk evVacation).2 :=
  upload_deterministic envQuiet wOk wOk evVacation rfl rfl rfl

/-! ### C5 -/

theorem roundAspectW_choice (w h : ℕ) :
    roundAspectW w h = max ⌊(150 * (w : ℚ)) / (h : ℚ)⌋ 1 ∨
    roundAspectW w h = max ⌈(150 * (w : ℚ)) / (h : ℚ)⌉ 1 := by
  have hfl : 150 * (w : ℤ) / (h : ℤ) = ⌊(150 * (w : ℚ)) / (h : ℚ)⌋ := by
    have h1 := Rat.floor_intCast_div_natCast (150 * (w : ℤ)) h
    have h2 : (((150 * (w : ℤ)) : ℤ) : ℚ) / ((h : ℕ) : ℚ) =
        (150 * (w : ℚ)) / (h : ℚ) := by push_cast; ring
    rw [h2] at h1
    omega
  have hce : -(-(150 * (w : ℤ)) / (h : ℤ)) = ⌈(150 * (w : ℚ)) / (h : ℚ)⌉ := by
    have h1 := Rat.floor_intCast_div_natCast (-(150 * (w : ℤ))) h
    have h2 : (((-(150 * (w : ℤ))) : ℤ) : ℚ) / ((h : ℕ) : ℚ) =
        -((150 * (w : ℚ)) / (h : ℚ)) := by push_cast; ring
    rw [h2, Int.floor_neg] at h1
    omega
  simp only [roundAspectW]
  split
  · left; rw [hfl]
  · right; rw [hce]

theorem roundAspectH_choice (w h : ℕ) :
    roundAspectH w h = max ⌊(150 * (h : ℚ)) / (w : ℚ)⌋ 1 ∨
    roundAspectH w h = max ⌈(150 * (h : ℚ)) / (w : ℚ)⌉ 1 := by
  have hfl : 150 * (h : ℤ) / (w : ℤ) = ⌊(150 * (h : ℚ)) / (w : ℚ)⌋ := by
    have h1 := Rat.floor_intCast_div_natCast (150 * (h : ℤ)) w
    have h2 : (((150 * (h : ℤ)) : ℤ) : ℚ) / ((w : ℕ) : ℚ) =
        (150 * (h : ℚ)) / (w : ℚ) := by push_cast; ring
    rw [h2] at h1
    omega
  have hce : -(-(150 * (h : ℤ)) / (w : ℤ)) = ⌈(150 * (h : ℚ)) / (w : ℚ)⌉ := by
    have h1 := Rat.floor_intCast_div_natCast (-(150 * (h : ℤ))) w
    have h2 : (((-(150 * (h : ℤ))) : ℤ) : ℚ) / ((w : ℕ) : ℚ) =
        -((150 * (h : ℚ)) / (w : ℚ)) := by push_cast; ring
    rw [h2, Int.floor_neg] at h1
    omega
  simp only [roundAspectH]
  split
  · left; rw [hfl]
  · split
    · left; rw [hfl]
    · right; rw [hce]

theorem roundAspectW_bounds (w h : ℕ) (hw : 0 < w) (h150 : 150 < h)
    (hwh : w ≤ h) :
    1 ≤ roundAspectW w h ∧ roundAspectW w h ≤ 150 ∧
      roundAspectW w h ≤ (w : ℤ) := by
  have hhq : (0 : ℚ) < (h : ℚ) := by exact_mod_cast (by omega : (0:ℕ) < _)
  have hq150 : (150 * (w : ℚ)) / (h : ℚ) ≤ 150 := by
    rw [div_le_iff hhq]
    have hc : (w : ℚ) ≤ (h : ℚ) := by exact_mod_cast hwh
    nlinarith
  have hqw : (150 * (w : ℚ)) / (h : ℚ) ≤ (w : ℚ) := by
    rw [div_le_iff hhq]
    have hc : (150 : ℚ) ≤ (h : ℚ) := by exact_mod_cast (by omega : (150 : ℕ) ≤ h)
    have hc2 : (0 : ℚ) ≤ (w : ℚ) := by positivity
    nlinarith
  have hceil150 : ⌈(150 * (w : ℚ)) / (h : ℚ)⌉ ≤ 150 :=
    Int.ceil_le.mpr (by exact_mod_cast hq150)
  have hceilw : ⌈(150 * (w : ℚ)) / (h : ℚ)⌉ ≤ (w : ℤ) :=
    Int.ceil_le.mpr (by push_cast; exact hqw)
  have hflce : ⌊(150 * (w : ℚ)) / (h : ℚ)⌋ ≤ ⌈(150 * (w : ℚ)) / (h : ℚ)⌉ :=
    Int.floor_le_ceil _
  have h1w : (1 : ℤ) ≤ (w : ℤ) := by exact_mod_cast hw
  rcases roundAspectW_choice w h with hc | hc <;> rw [hc]
  · exact ⟨le_max_right _ _, max_le (le_trans hflce hceil150) (by norm_num),
      max_le (le_trans hflce hceilw) h1w⟩
  · exact ⟨le_max_right _ _, max_le hceil150 (by norm_num),
      max_le hceilw h1w⟩

theorem roundAspectH_bounds (w h : ℕ) (hh : 0 < h) (w150 : 150 < w)
    (hhw : h ≤ w) :
    1 ≤ roundAspectH w h ∧ roundAspectH w h ≤ 150 ∧
      roundAspectH w h ≤ (h : ℤ) := by
  have hwq : (0 : ℚ) < (w : ℚ) := by exact_mod_cast (by omega : (0:ℕ) < _)
  have hq150 : (150 * (h : ℚ)) / (w : ℚ) ≤ 150 := by
    rw [div_le_iff hwq]
    have hc : (h : ℚ) ≤ (w : ℚ) := by exact_mod_cast hhw
    nlinarith
  have hqh : (150 * (h : ℚ)) / (w : ℚ) ≤ (h : ℚ) := by
    rw [div_le_iff hwq]
    have hc : (150 : ℚ) ≤ (w : ℚ) := by exact_mod_cast (by omega : (150 : ℕ) ≤ w)
    have hc2 : (0 : ℚ) ≤ (h : ℚ) := by positivity
    nlinarith
  have hceil150 : ⌈(150 * (h : ℚ)) / (w : ℚ)⌉ ≤ 150 :=
    Int.ceil_le.mpr (by exact_mod_cast hq150)
  have hceilh : ⌈(150 * (h : ℚ)) / (w : ℚ)⌉ ≤ (h : ℤ) :=
    Int.ceil_le.mpr (by push_cast; exact hqh)
  have hflce : ⌊(150 * (h : ℚ)) / (w : ℚ)⌋ ≤ ⌈(150 * (h : ℚ)) / (w : ℚ)⌉ :=
    Int.floor_le_ceil _
  have h1h : (1 : ℤ) ≤ (h : ℤ) := by exact_mod_cast hh
  rcases roundAspectH_choice w h with hc | hc <;> rw [hc]
  · exact ⟨le_max_right _ _, max_le (le_trans hflce hceil150) (by norm_num),
      max_le (le_trans hflce hceilh) h1h⟩
  · exact ⟨le_max_right _ _, max_le hceil150 (by norm_num),
      max_le hceilh h1h⟩

/-- C5: the thumbnail never exceeds 150 in either dimension, never exceeds
the source dimensions (no upscaling), leaves an image already within
150×150 untouched, and in the resized case the binding dimension becomes
exactly 150 while the other is the aspect-preserving scaled value rounded
to its floor or its ceiling (clamped to at least 1). -/
theorem thumbnail_bounded_no_upscale (img : Img)
    (hw : 0 < img.width) (hh : 0 < img.height) :
    (pilThumbnail img).width ≤ 150 ∧ (pilThumbnail img).height ≤ 150 ∧
    (pilThumbnail img).width ≤ img.width ∧
    (pilThumbnail img).height ≤ img.height ∧
    (img.width ≤ 150 → img.height ≤ 150 → pilThumbnail img = img) ∧
    (¬(img.width ≤ 150 ∧ img.height ≤ 150) →
      (((pilThumbnail img).height = 150 ∧
        (((pilThumbnail img).width : ℤ) =
            max ⌊(150 * (img.width : ℚ)) / (img.height : ℚ)⌋ 1 ∨
         ((pilThumbnail img).width : ℤ) =
            max ⌈(150 * (img.width : ℚ)) / (img.height : ℚ)⌉ 1)) ∨
       ((pilThumbnail img).width = 150 ∧
        (((pilThumbnail img).height : ℤ) =
            max ⌊(150 * (img.height : ℚ)) / (img.width : ℚ)⌋ 1 ∨
         ((pilThumbnail img).height : ℤ) =
            max ⌈(150 * (img.height : ℚ)) / (img.width : ℚ)⌉ 1)))) := by
  obtain ⟨w, h, fm, md⟩ := img
  simp only at hw hh ⊢
  by_cases hfit : 150 ≥ w ∧ 150 ≥ h
  · have he : pilThumbnail ⟨w, h, fm, md⟩ = ⟨w, h, fm, md⟩ := by
      simp [pilThumbnail, hfit]
    rw [he]
    exact ⟨hfit.1, hfit.2, le_refl _, le_refl _, fun _ _ => rfl,
      fun hcon => absurd ⟨hfit.1, hfit.2⟩ hcon⟩
  · by_cases hwh : (h : ℤ) ≥ (w : ℤ)
    · have hwh' : w ≤ h := by exact_mod_cast hwh
      have h150 : 150 < h := by omega
      have he : pilThumbnail ⟨w, h, fm, md⟩ =
          ⟨(roundAspectW w h).toNat, 150, fm, md⟩ := by
        simp [pilThumbnail, hfit, hwh]
      obtain ⟨hr1, hr150, hrw⟩ := roundAspectW_bounds w h hw h150 hwh'
      rw [he]
      dsimp only
      refine ⟨by omega, by omega, by omega, by omega,
        fun h1 h2 => absurd ⟨h1, h2⟩ hfit, fun _ => Or.inl ⟨rfl, ?_⟩⟩
      rcases roundAspectW_choice w h with hc | hc
      · left; rw [← hc]; omega
      · right; rw [← hc]; omega
    · have hwh' : h < w := by omega
      have w150 : 150 < w := by omega
      have he : pilThumbnail ⟨w, h, fm, md⟩ =
          ⟨150, (roundAspectH w h).toNat, fm, md⟩ := by
        simp [pilThumbnail, hfit, hwh]
      obtain ⟨hr1, hr150, hrh⟩ := roundAspectH_bounds w h hh w150 (by omega)
      rw [he]
      dsimp only
      refine ⟨by omega, by omega, by omega, by omega,
        fun h1 h2 => absurd ⟨h1, h2⟩ hfit, fun _ => Or.inr ⟨rfl, ?_⟩⟩
      rcases roundAspectH_choice w h with hc | hc
      · left; rw [← hc]; omega
      · right; rw [← hc]; omega

/-- C5 witness: the spec's 800×600 example — bounded, not upscaled, and
aspect-rounded. -/
theorem thumbnail_bounded_no_upscale_witness :
    (pilThumbnail ⟨800, 600, "PNG", "RGB"⟩).width ≤ 150 ∧
    (pilThumbnail ⟨800, 600, "PNG", "RGB"⟩).height ≤ 150 ∧
    (pilThumbnail ⟨800, 600, "PNG", "RGB"⟩).width ≤ Img.width ⟨800, 600, "PNG", "RGB"⟩ ∧
    (pilThumbnail ⟨800, 600, "PNG", "RGB"⟩).height ≤ Img.height ⟨800, 600, "PNG", "RGB"⟩ ∧
    (Img.width ⟨800, 600, "PNG", "RGB"⟩ ≤ 150 →
      Img.height ⟨800, 600, "PNG", "RGB"⟩ ≤ 150 →
      pilThumbnail ⟨800, 600, "PNG", "RGB"⟩ = ⟨800, 600, "PNG", "RGB"⟩) ∧
    (¬(Img.width ⟨800, 600, "PNG", "RGB"⟩ ≤ 150 ∧
        Img.height ⟨800, 600, "PNG", "RGB"⟩ ≤ 150) →
      (((pilThumbnail ⟨800, 600, "PNG", "RGB"⟩).height = 150 ∧
        (((pilThumbnail ⟨800, 600, "PNG", "RGB"⟩).width : ℤ) =
            max ⌊(150 * (Img.width ⟨800, 600, "PNG", "RGB"⟩ : ℚ)) /
              (Img.height ⟨800, 600, "PNG", "RGB"⟩ : ℚ)⌋ 1 ∨
         ((pilThumbnail ⟨800, 600, "PNG", "RGB"⟩).width : ℤ) =
            max ⌈(150 * (Img.width ⟨800, 600, "PNG", "RGB"⟩ : ℚ)) /
              (Img.height ⟨800, 600, "PNG", "RGB"⟩ : ℚ)⌉ 1)) ∨
       ((pilThumbnail ⟨800, 600, "PNG", "RGB"⟩).width = 150 ∧
        (((pilThumbnail ⟨800, 600, "PNG", "RGB"⟩).height : ℤ) =
            max ⌊(150 * (Img.height ⟨800, 600, "PNG", "RGB"⟩ : ℚ)) /
              (Img.width ⟨800, 600, "PNG", "RGB"⟩ : ℚ)⌋ 1 ∨
         ((pilThumbnail ⟨800, 600, "PNG", "RGB"⟩).height : ℤ) =
            max ⌈(150 * (Img.height ⟨800, 600, "PNG", "RGB"⟩ : ℚ)) /
              (Img.width ⟨800, 600, "PNG", "RGB"⟩ : ℚ)⌉ 1)))) :=
  thumbnail_bounded_no_upscale ⟨800, 600, "PNG", "RGB"⟩ (by decide) (by decide)

/-! ### C10 -/

theorem mem_pre_of_cons3 {α : Type} (pre post rest : List α) (x y a b c : α)
    (h : a :: b :: c :: y :: rest = pre ++ x :: post)
    (hxa : x ≠ a) (hxb : x ≠ b) (hxc : x ≠ c) :
    c ∈ pre := by
  rcases pre with _ | ⟨p1, _ | ⟨p2, _ | ⟨p3, ps⟩⟩⟩ <;> simp_all

theorem no_success_publish_split (L pre post : List Effect) (t m : String)
    (hL : L = pre ++ Effect.publish t "Image Processing Successful" m :: post)
    (hnot : Effect.publish t "Image Processing Successful" m ∉ L) : False :=
  hnot (hL ▸ List.mem_append_right pre (List.mem_cons_self _ _))

/-- In every invocation, a success publish can appear in the trace only
after an upload: any split of the trace at a success publish has a
`putObject` in the prefix. -/
theorem success_publish_after_upload (env : Env) (w : World) (event : Event)
    (pre post : List Effect) (t m : String)
    (h : (lambda_handler env w event).2 =
      pre ++ Effect.publish t "Image Processing Successful" m :: post) :
    ∃ d k2 bs, Effect.putObject d k2 bs "image/jpeg" "STANDARD_IA" ∈ pre := by
  revert h
  cases hp : parseEvent event with
  | none =>
    have e0 : (lambda_handler env w event).2 = [] := by
      simp [lambda_handler, hp]
    rw [e0]
    intro h
    simp at h
  | some bk =>
    obtain ⟨b, k⟩ := bk
    cases hik : isImageKey k
    · have e0 : (lambda_handler env w event).2 = [] := by
        simp [lambda_handler, hp, hik]
      rw [e0]
      intro h
      simp at h
    · rw [lambda_handler_eq_tryBlock env w event b k hp hik]
      rcases hg : w.getObject b k with e | c
      · have htb : tryBlock env w b k = (.error e, [Effect.getObject b k]) := by
          simp [tryBlock, hg]
        rw [htb]
        rcases exceptHandler_snd env w k e [Effect.getObject b k] with h2 | ⟨t2, h2⟩ <;>
          rw [h2] <;> intro h <;>
          exact (no_success_publish_split _ pre post t m h (by simp)).elim
      · rcases hd : w.decode c with e | img
        · have htb : tryBlock env w b k = (.error e, [Effect.getObject b k]) := by
            simp [tryBlock, hg, hd]
          rw [htb]
          rcases exceptHandler_snd env w k e [Effect.getObject b k] with h2 | ⟨t2, h2⟩ <;>
            rw [h2] <;> intro h <;>
            exact (no_success_publish_split _ pre post t m h (by simp)).elim
        · rcases he : w.encode (savedImage img).1 (savedImage img).2 true 85 with e | bs
          · have htb : tryBlock env w b k = (.error e, [Effect.getObject b k,
                Effect.encodeImage (savedImage img).1 (savedImage img).2 true 85]) := by
              simp [tryBlock, hg, hd, he]
            rw [htb]
            rcases exceptHandler_snd env w k e _ with h2 | ⟨t2, h2⟩ <;>
              rw [h2] <;> intro h <;>
              exact (no_success_publish_split _ pre post t m h (by simp)).elim
          · rcases hdb : env.DESTINATION_BUCKET with _ | d
            · have htb : tryBlock env w b k = (.error "'DESTINATION_BUCKET'",
                  [Effect.getObject b k,
                   Effect.encodeImage (savedImage img).1 (savedImage img).2 true 85]) := by
                simp [tryBlock, hg, hd, he, hdb]
              rw [htb]
              rcases exceptHandler_snd env w k _ _ with h2 | ⟨t2, h2⟩ <;>
                rw [h2] <;> intro h <;>
                exact (no_success_publish_split _ pre post t m h (by simp)).elim
            · rcases hput : w.putObject d (destKey k) bs "image/jpeg" "STANDARD_IA"
                with e | u
              · have htb : tryBlock env w b k = (.error e,
                    [Effect.getObject b k,
                     Effect.encodeImage (savedImage img).1 (savedImage img).2 true 85,
                     Effect.putObject d (destKey k) bs "image/jpeg" "STANDARD_IA"]) := by
                  simp [tryBlock, hg, hd, he, hdb, hput]
                rw [htb]
                rcases exceptHandler_snd env w k e _ with h2 | ⟨t2, h2⟩ <;>
                  rw [h2] <;> intro h <;>
                  exact (no_success_publish_split _ pre post t m h (by simp)).elim
              · cases hne : notificationsEnabled env
                · have htb : tryBlock env w b k = (.ok ⟨200,
                      .json "Image processed successfully" k (destKey k)⟩,
                      [Effect.getObject b k,
                       Effect.encodeImage (savedImage img).1 (savedImage img).2 true 85,
                       Effect.putObject d (destKey k) bs "image/jpeg" "STANDARD_IA"]) := by
                    simp [tryBlock, hg, hd, he, hdb, hput, hne]
                  rw [htb]
                  intro h
                  exact (no_success_publish_split _ pre post t m h (by simp)).elim
                · rcases hsns : env.SNS_TOPIC_ARN with _ | t2
                  · have htb : tryBlock env w b k = (.error "'SNS_TOPIC_ARN'",
                        [Effect.getObject b k,
                         Effect.encodeImage (savedImage img).1 (savedImage img).2 true 85,
                         Effect.putObject d (destKey k) bs "image/jpeg" "STANDARD_IA"]) := by
                      simp [tryBlock, hg, hd, he, hdb, hput, hne, hsns]
                    rw [htb]
                    rcases exceptHandler_snd env w k _ _ with h2 | ⟨t3, h2⟩ <;>
                      rw [h2] <;> intro h <;>
                      exact (no_success_publish_split _ pre post t m h (by simp)).elim
                  · rcases hpb : w.publish t2 "Image Processing Successful"
                        (successMessage k d (destKey k)) with e | u2
                    · have htb : tryBlock env w b k = (.error e,
                          [Effect.getObject b k,
                           Effect.encodeImage (savedImage img).1 (savedImage img).2 true 85,
                           Effect.putObject d (destKey k) bs "image/jpeg" "STANDARD_IA",
                           Effect.publish t2 "Image Processing Successful"
                             (successMessage k d (destKey k))]) := by
                        simp [tryBlock, hg, hd, he, hdb, hput, hne, hsns, hpb]
                      rw [htb]
                      rcases exceptHandler_snd env w k e _ with h2 | ⟨t3, h2⟩ <;>
                        rw [h2] <;> intro h
                      · exact ⟨d, destKey k, bs,
                          mem_pre_of_cons3 pre post [] _ _ _ _ _ h
                            (by simp) (by simp) (by simp)⟩
                      · simp only [List.cons_append, List.nil_append] at h
                        exact ⟨d, destKey k, bs,
                          mem_pre_of_cons3 pre post _ _ _ _ _ _ h
                            (by simp) (by simp) (by simp)⟩
                    · have htb : tryBlock env w b k = (.ok ⟨200,
                          .json "Image processed successfully" k (destKey k)⟩,
                          [Effect.getObject b k,
                           Effect.encodeImage (savedImage img).1 (savedImage img).2 true 85,
                           Effect.putObject d (destKey k) bs "image/jpeg" "STANDARD_IA",
                           Effect.publish t2 "Image Processing Successful"
                             (successMessage k d (destKey k))]) := by
                        simp [tryBlock, hg, hd, he, hdb, hput, hne, hsns, hpb]
                      rw [htb]
                      intro h
                      exact ⟨d, destKey k, bs,
                        mem_pre_of_cons3 pre post [] _ _ _ _ _ h
                          (by simp) (by simp) (by simp)⟩

/-- C10: in a successful transform the upload precedes any success-publish
attempt (universally, a success publish never appears in a trace without an
upload before it); and when the success publish itself raises while
notifications are enabled, the handler diverts to the failure path — it
attempts a failure publish, propagates an error (the success-publish error
when the failure publish succeeds, that publish's own error when it raises
too) — and the success result is not returned, even though the thumbnail
was already written. -/
theorem upload_before_success_publish (env : Env) (w : World) (event : Event)
    (r : EventRecord) (rs : List EventRecord) (b k : String)
    (c : ByteSeq) (img : Img) (bs : ByteSeq) (d t e : String)
    (hrec : event.Records = some (r :: rs)) (hb : r.bucketName = some b)
    (hk : r.objectKey = some k) (himg : isImageKey k = true)
    (hget : w.getObject b k = .ok c) (hdec : w.decode c = .ok img)
    (henc : w.encode (savedImage img).1 (savedImage img).2 true 85 = .ok bs)
    (hdb : env.DESTINATION_BUCKET = some d)
    (hput : w.putObject d (destKey k) bs "image/jpeg" "STANDARD_IA" = .ok ())
    (hne : notificationsEnabled env = true)
    (ht : env.SNS_TOPIC_ARN = some t)
    (hpub : w.publish t "Image Processing Successful"
      (successMessage k d (destKey k)) = .error e) :
    (lambda_handler env w event).2 =
      [Effect.getObject b k,
       Effect.encodeImage (savedImage img).1 (savedImage img).2 true 85,
       Effect.putObject d (destKey k) bs "image/jpeg" "STANDARD_IA",
       Effect.publish t "Image Processing Successful" (successMessage k d (destKey k)),
       Effect.publish t "Image Processing Failed" (error_msg k e)] ∧
    (∀ resp, (lambda_handler env w event).1 ≠ .returned resp) ∧
    (w.publish t "Image Processing Failed" (error_msg k e) = .ok () →
      (lambda_handler env w event).1 = .raised e) ∧
    (∀ e2, w.publish t "Image Processing Failed" (error_msg k e) = .error e2 →
      (lambda_handler env w event).1 = .raised e2) ∧
    (∀ env2 w2 ev2 pre post t2 m2,
      (lambda_handler env2 w2 ev2).2 =
        pre ++ Effect.publish t2 "Image Processing Successful" m2 :: post →
      ∃ d2 k2 b2, Effect.putObject d2 k2 b2 "image/jpeg" "STANDARD_IA" ∈ pre) := by
  have hp : parseEvent event = some (b, k) := by
    simp [parseEvent, hrec, hb, hk]
  have htb : tryBlock env w b k = (.error e,
      [Effect.getObject b k,
       Effect.encodeImage (savedImage img).1 (savedImage img).2 true 85,
       Effect.putObject d (destKey k) bs "image/jpeg" "STANDARD_IA",
       Effect.publish t "Image Processing Successful"
         (successMessage k d (destKey k))]) := by
    simp [tryBlock, hget, hdec, henc, hdb, hput, hne, ht, hpub]
  have hlh : lambda_handler env w event = exceptHandler env w k e
      [Effect.getObject b k,
       Effect.encodeImage (savedImage img).1 (savedImage img).2 true 85,
       Effect.putObject d (destKey k) bs "image/jpeg" "STANDARD_IA",
       Effect.publish t "Image Processing Successful"
         (successMessage k d (destKey k))] := by
    rw [lambda_handler_eq_tryBlock env w event b k hp himg, htb]
  obtain ⟨hsnd, hok, herr⟩ := exceptHandler_notify env w k e
    [Effect.getObject b k,
     Effect.encodeImage (savedImage img).1 (savedImage img).2 true 85,
     Effect.putObject d (destKey k) bs "image/jpeg" "STANDARD_IA",
     Effect.publish t "Image Processing Successful"
       (successMessage k d (destKey k))] t hne ht
  refine ⟨by rw [hlh, hsnd]; rfl, ?_, ?_, ?_,
    fun env2 w2 ev2 pre post t2 m2 h =>
      success_publish_after_upload env2 w2 ev2 pre post t2 m2 h⟩
  · intro resp hcon
    obtain ⟨e2, h2⟩ := exceptHandler_fst env w k e
      [Effect.getObject b k,
       Effect.encodeImage (savedImage img).1 (savedImage img).2 true 85,
       Effect.putObject d (destKey k) bs "image/jpeg" "STANDARD_IA",
       Effect.publish t "Image Processing Successful"
         (successMessage k d (destKey k))]
    rw [hlh, h2] at hcon
    simp at hcon
  · intro hokk
    rw [hlh]
    exact hok hokk
  · intro e2 he2
    rw [hlh]
    exact herr e2 he2

/-- C10 witness: a world in which only the success publish raises. -/
theorem upload_before_success_publish_witness :
    (lambda_handler envNotify wSuccessPubFail evVacation).2 =
      [Effect.getObject "src" "photos/vacation.PNG",
       Effect.encodeImage (savedImage ⟨800, 600, "PNG", "RGB"⟩).1
         (savedImage ⟨800, 600, "PNG", "RGB"⟩).2 true 85,
       Effect.putObject "dest" (destKey "photos/vacation.PNG") [9, 9]
         "image/jpeg" "STANDARD_IA",
       Effect.publish "topic" "Image Processing Successful"
         (successMessage "photos/vacation.PNG" "dest" (destKey "photos/vacation.PNG")),
       Effect.publish "topic" "Image Processing Failed"
         (error_msg "photos/vacation.PNG" "snsdown")] ∧
    (∀ resp, (lambda_handler envNotify wSuccessPubFail evVacation).1 ≠ .returned resp) ∧
    (wSuccessPubFail.publish "topic" "Image Processing Failed"
        (error_msg "photos/vacation.PNG" "snsdown") = .ok () →
      (lambda_handler envNotify wSuccessPubFail evVacation).1 = .raised "snsdown") ∧
    (∀ e2, wSuccessPubFail.publish "topic" "Image Processing Failed"
        (error_msg "photos/vacation.PNG" "snsdown") = .error e2 →
      (lambda_handler envNotify wSuccessPubFail evVacation).1 = .raised e2) ∧
    (∀ env2 w2 ev2 pre post t2 m2,
      (lambda_handler env2 w2 ev2).2 =
        pre ++ Effect.publish t2 "Image Processing Successful" m2 :: post →
      ∃ d2 k2 b2, Effect.putObject d2 k2 b2 "image/jpeg" "STANDARD_IA" ∈ pre) :=
  upload_before_success_publish envNotify wSuccessPubFail evVacation
    ⟨some "src", some "photos/vacation.PNG"⟩ [] "src" "photos/vacation.PNG"
    [1, 2, 3] ⟨800, 600, "PNG", "RGB"⟩ [9, 9] "dest" "topic" "snsdown"
    rfl rfl rfl (by decide) rfl rfl rfl rfl rfl (by decide) rfl (by decide)

end ImageProcessor
